import Mathlib

/-!
Verification development for the CNL-to-MCP generator
(`src/turtle-cli/cnl_to_mcp_generator.ts`).

The TypeScript source is embedded shallowly: every regular-expression
operation of the source is translated into an executable scanner over
`List Char` that reproduces the JavaScript regex semantics for that
concrete pattern (leftmost match, one-character advance on failure,
resumption after the end of a match for global scans, lazy `(.*?)`
capture up to the first occurrence of the stop literal, greedy
character-class runs followed by a mandatory literal).  Inputs are
assumed to be ASCII-representable, where JavaScript UTF-16 strings and
Lean `Char` lists agree.
-/

/-- JavaScript `\w` character class: `[A-Za-z0-9_]` (ASCII only). -/
def isWordChar (c : Char) : Bool :=
  (c.isUpper || c.isLower || c.isDigit || c == '_')

/-- JavaScript `\s` character class, restricted to the code points that can
appear in ASCII specification files (space, tab, LF, VT, FF, CR, NBSP, BOM). -/
def isJsSpace (c : Char) : Bool :=
  (c == ' ' || c == '\t' || c == '\n' || c == '\x0b' || c == '\x0c' || c == '\r' ||
   c == '\u00A0' || c == '\uFEFF')

/-- Character list of a string literal. -/
def strL (s : String) : List Char := s.data

/- Literal fragments of the source's regular expressions. -/

def litTOOLSPEC : List Char := strL "TOOL_SPECIFICATION"

/-- Stop literal of the tool-block lookahead (no trailing colon, line 48). -/
def litMCPSTOP : List Char := strL "MCP_SERVER_CONFIGURATION"

/-- Start literal of the configuration block (with colon, line 72). -/
def litMCPCONFIG : List Char := strL "MCP_SERVER_CONFIGURATION:"

def litGENRULES : List Char := strL "GENERATION_RULES"

def litDESCRIPTION : List Char := strL "DESCRIPTION:"

def litIMPLPATTERN : List Char := strL "IMPLEMENTATION_PATTERN:"

def litPARAMETERS : List Char := strL "PARAMETERS:"

def litRETURNS : List Char := strL "RETURNS:"

def litNAME : List Char := strL "NAME:"

def litVERSION : List Char := strL "VERSION:"

def litTRANSPORT : List Char := strL "TRANSPORT:"

/-- Lazy capture `(.*?)` up to the first occurrence of literal `lit`
(`none` when `lit` does not occur, which makes the whole regex fail). -/
def takeUntilLit (lit : List Char) : List Char → Option (List Char)
  | [] => if lit.isPrefixOf ([] : List Char) then some [] else none
  | c :: s' =>
    if lit.isPrefixOf (c :: s') then some []
    else (takeUntilLit lit s').map (fun cap => c :: cap)

/-- Lazy capture `(.*?)` up to the lookahead `(?=lit|$)`: stops at the first
occurrence of `lit`, or consumes the whole remainder. -/
def takeUntilLitOrEnd (lit : List Char) : List Char → List Char
  | [] => []
  | c :: s' =>
    if lit.isPrefixOf (c :: s') then [] else c :: takeUntilLitOrEnd lit s'

/-- Lazy capture of a tool block's body, line 48: `(.*?)` with lookahead
`(?=TOOL_SPECIFICATION|MCP_SERVER_CONFIGURATION|$)`. -/
def bodyTake : List Char → List Char
  | [] => []
  | c :: s' =>
    if litTOOLSPEC.isPrefixOf (c :: s') || litMCPSTOP.isPrefixOf (c :: s') then []
    else c :: bodyTake s'

/-- Does `lit` occur anywhere in `s` (as a contiguous sublist)? -/
def containsLit (lit : List Char) : List Char → Bool
  | [] => lit.isPrefixOf ([] : List Char)
  | c :: s' => lit.isPrefixOf (c :: s') || containsLit lit s'

/-- Attempt, anchored at the current position, of the head of the tool-block
regex `TOOL_SPECIFICATION\s+(\w+):` (line 48).  On success returns the
captured name and the remainder after the colon. -/
def matchToolHeader (s : List Char) : Option (List Char × List Char) :=
  if litTOOLSPEC.isPrefixOf s then
    let s1 := s.drop litTOOLSPEC.length
    let sp := s1.takeWhile isJsSpace
    if sp = [] then none
    else
      let s2 := s1.drop sp.length
      let name := s2.takeWhile isWordChar
      if name = [] then none
      else
        match s2.drop name.length with
        | ':' :: s4 => some (name, s4)
        | _ => none
  else none

/-- Anchored attempt of the whole tool-block regex: header plus lazy body.
Returns `((name, body), remainder-after-match)`. -/
def matchToolBlock (s : List Char) : Option ((List Char × List Char) × List Char) :=
  match matchToolHeader s with
  | none => none
  | some (name, after) =>
    let body := bodyTake after
    some ((name, body), after.drop body.length)

/-- Captures of one parameter list line, in source order. -/
structure ParamCap where
  name : List Char
  kind : List Char
  req : List Char
  desc : List Char
deriving Repr, DecidableEq

/-- Captures of one return list line. -/
structure ReturnCap where
  name : List Char
  kind : List Char
  desc : List Char
deriving Repr, DecidableEq

/-- Anchored attempt of the parameter line regex
`- (\w+): (\w+) \((\w+)\) "([^"]+)"` (lines 93 and 97). -/
def matchParamLine (s : List Char) : Option (ParamCap × List Char) :=
  match s with
  | '-' :: ' ' :: s1 =>
    let name := s1.takeWhile isWordChar
    if name = [] then none
    else
      match s1.drop name.length with
      | ':' :: ' ' :: s2 =>
        let kind := s2.takeWhile isWordChar
        if kind = [] then none
        else
          match s2.drop kind.length with
          | ' ' :: '(' :: s3 =>
            let req := s3.takeWhile isWordChar
            if req = [] then none
            else
              match s3.drop req.length with
              | ')' :: ' ' :: '"' :: s4 =>
                let desc := s4.takeWhile (fun c => !(c == '"'))
                if desc = [] then none
                else
                  match s4.drop desc.length with
                  | '"' :: s5 => some (⟨name, kind, req, desc⟩, s5)
                  | _ => none
              | _ => none
          | _ => none
      | _ => none
  | _ => none

/-- Anchored attempt of the return line regex
`- (\w+): (\w+) "([^"]+)"` (lines 116 and 120). -/
def matchReturnLine (s : List Char) : Option (ReturnCap × List Char) :=
  match s with
  | '-' :: ' ' :: s1 =>
    let name := s1.takeWhile isWordChar
    if name = [] then none
    else
      match s1.drop name.length with
      | ':' :: ' ' :: s2 =>
        let kind := s2.takeWhile isWordChar
        if kind = [] then none
        else
          match s2.drop kind.length with
          | ' ' :: '"' :: s3 =>
            let desc := s3.takeWhile (fun c => !(c == '"'))
            if desc = [] then none
            else
              match s3.drop desc.length with
              | '"' :: s4 => some (⟨name, kind, desc⟩, s4)
              | _ => none
          | _ => none
      | _ => none
  | _ => none

/-- Global regex scan (`matchAll` / `String.match` with the `g` flag): try the
anchored matcher at each position, resume after the end of each match,
advance one character on failure.  The fuel argument is an embedding
artifact; `scanAll` supplies `s.length`, which suffices because every
successful match consumes at least one character (see `scanF_fuel_irrel`
and the `*_consumes` lemmas below). -/
def scanF (M : List Char → Option (α × List Char)) : Nat → List Char → List α
  | 0, _ => []
  | _ + 1, [] => []
  | fuel + 1, c :: s' =>
    match M (c :: s') with
    | some (a, rest) => a :: scanF M fuel rest
    | none => scanF M fuel s'

def scanAll (M : List Char → Option (α × List Char)) (s : List Char) : List α :=
  scanF M s.length s

/-- All tool-block matches of the source text, line 48. -/
def scanToolBlocks (s : List Char) : List (List Char × List Char) :=
  scanAll matchToolBlock s

/-- First match of `label\s*"([^"]+)"` anchored at the current position. -/
def tryLabeledQuoted (label s : List Char) : Option (List Char) :=
  if label.isPrefixOf s then
    match (s.drop label.length).dropWhile isJsSpace with
    | '"' :: s2 =>
      let q := s2.takeWhile (fun c => !(c == '"'))
      if q = [] then none
      else
        match s2.drop q.length with
        | '"' :: _ => some q
        | _ => none
    | _ => none
  else none

/-- First match of `label\s*"([^"]+)"` anywhere in the text (non-global
`String.match`, lines 54, 59, 75-77): capture of the quoted string. -/
def findLabeledQuoted (label : List Char) : List Char → Option (List Char)
  | [] => none
  | c :: s' =>
    match tryLabeledQuoted label (c :: s') with
    | some q => some q
    | none => findLabeledQuoted label s'

/-- First match of `start(.*?)stop` (dotall, lines 90 and 113): the capture
between the first viable occurrence of `start` and the following `stop`. -/
def findSection (start stop : List Char) : List Char → Option (List Char)
  | [] => none
  | c :: s' =>
    if start.isPrefixOf (c :: s') then
      match takeUntilLit stop ((c :: s').drop start.length) with
      | some cap => some cap
      | none => findSection start stop s'
    else findSection start stop s'

/-- First match of `start(.*?)(?=stop|$)` (dotall, line 72). -/
def findSectionToEnd (start stop : List Char) : List Char → Option (List Char)
  | [] => none
  | c :: s' =>
    if start.isPrefixOf (c :: s') then
      some (takeUntilLitOrEnd stop ((c :: s').drop start.length))
    else findSectionToEnd start stop s'

/- Data model (lines 12-39).  The TypeScript interfaces declare the closed
union `'string' | 'number' | 'boolean' | 'array'` for `type`, but the parser
stores the captured word with an `as any` cast (lines 101, 124), so the field
is modelled as a `String` carrying the captured word verbatim. -/

structure ToolParameter where
  name : String
  type : String
  required : Bool
  description : String
deriving Repr, DecidableEq

structure ToolReturn where
  name : String
  type : String
  description : String
deriving Repr, DecidableEq

structure ToolSpec where
  name : String
  description : String
  parameters : List ToolParameter
  returns : List ToolReturn
  implementationPattern : String
deriving Repr, DecidableEq

structure MCPServerConfig where
  name : String
  version : String
  transport : String
  capabilities : List String
  tools : List ToolSpec
deriving Repr, DecidableEq

/-- Lines 99-104: build a `ToolParameter` from one line's captures
(`required: match[3] === 'required'`). -/
def paramOfCapture (cap : ParamCap) : ToolParameter :=
  ⟨String.mk cap.name, String.mk cap.kind, cap.req == strL "required", String.mk cap.desc⟩

/-- Lines 122-126: build a `ToolReturn` from one line's captures. -/
def returnOfCapture (cap : ReturnCap) : ToolReturn :=
  ⟨String.mk cap.name, String.mk cap.kind, String.mk cap.desc⟩

/-- `parseParameters` (lines 88-109): the section between `PARAMETERS:` and
`RETURNS:`, then a global scan for parameter lines. -/
def parseParameters (toolContent : List Char) : List ToolParameter :=
  match findSection litPARAMETERS litRETURNS toolContent with
  | none => []
  | some sec => (scanAll matchParamLine sec).map paramOfCapture

/-- `parseReturns` (lines 111-131): the section between `RETURNS:` and
`IMPLEMENTATION_PATTERN:`, then a global scan for return lines. -/
def parseReturns (toolContent : List Char) : List ToolReturn :=
  match findSection litRETURNS litIMPLPATTERN toolContent with
  | none => []
  | some sec => (scanAll matchReturnLine sec).map returnOfCapture

/-- Lines 50-68: one `ToolSpec` from a tool block's captured name and body. -/
def parseTool (name body : List Char) : ToolSpec :=
  ⟨String.mk name,
   (match findLabeledQuoted litDESCRIPTION body with
    | some d => String.mk d
    | none => ""),
   parseParameters body,
   parseReturns body,
   (match findLabeledQuoted litIMPLPATTERN body with
    | some p => String.mk p
    | none => "")⟩

/-- Lines 72-73: the configuration block's content (empty when absent). -/
def configContentOf (content : String) : List Char :=
  match findSectionToEnd litMCPCONFIG litGENRULES (strL content) with
  | some c => c
  | none => []

/-- `parseCNLFile` (lines 43-86) on the file's text: the accumulated tool
descriptors (a fold mirroring the `push` loop) plus the server metadata with
its defaults.  The function is total: no failure path exists in the source
apart from the file-system read. -/
def parseCNL (content : String) : MCPServerConfig :=
  let toolSpecs :=
    (scanToolBlocks (strL content)).foldl (fun acc m => acc ++ [parseTool m.1 m.2]) []
  ⟨(match findLabeledQuoted litNAME (configContentOf content) with
    | some v => String.mk v
    | none => "generated-mcp-server"),
   (match findLabeledQuoted litVERSION (configContentOf content) with
    | some v => String.mk v
    | none => "0.1.0"),
   (match findLabeledQuoted litTRANSPORT (configContentOf content) with
    | some v => String.mk v
    | none => "stdio"),
   ["tools", "resources"],
   toolSpecs⟩

/- Scaffold generator (lines 133-351).  Each emitted file's content is a pure
function of the model; the file system is modelled below as a map from paths
to contents, and `path.join` as `/`-separated concatenation.  Literal braces
inside generated text are written with the escapes `\x7b` and `\x7d`. -/

/-- JSON string escaping as performed by `JSON.stringify` on one character
(quote, backslash, the short control escapes, `\u00XX` for other control
characters). -/
def hexDigit (n : Nat) : Char :=
  if n < 10 then Char.ofNat (48 + n) else Char.ofNat (87 + n)

def jsonEscChar (c : Char) : List Char :=
  if c == '"' then ['\\', '"']
  else if c == '\\' then ['\\', '\\']
  else if c == '\x08' then ['\\', 'b']
  else if c == '\t' then ['\\', 't']
  else if c == '\n' then ['\\', 'n']
  else if c == '\x0c' then ['\\', 'f']
  else if c == '\r' then ['\\', 'r']
  else if c.toNat < 32 then
    ['\\', 'u', '0', '0', hexDigit (c.toNat / 16), hexDigit (c.toNat % 16)]
  else [c]

def jsonStringData (s : String) : List Char :=
  '"' :: (strL s).flatMap jsonEscChar ++ ['"']

/-- `Array.prototype.join(sep)` on already-rendered fragments. -/
def joinSep (sep : List Char) : List (List Char) → List Char
  | [] => []
  | [x] => x
  | x :: y :: t => x ++ sep ++ joinSep sep (y :: t)

/-- Class name mangling (lines 185, 250): every dash of `config.name` is
replaced by an underscore, then the result is upper-cased (ASCII model of
`toUpperCase`). -/
def classNameData (s : String) : List Char :=
  (strL s).map (fun c => (if c == '-' then '_' else c).toUpper)

/-- `tool.name.charAt(0).toUpperCase() + tool.name.slice(1)` (line 275). -/
def capData (s : String) : List Char :=
  match strL s with
  | [] => []
  | c :: r => c.toUpper :: r

/-- `String.prototype.trim()`: strip whitespace from both ends. -/
def trimList (l : List Char) : List Char :=
  ((l.dropWhile isJsSpace).reverse.dropWhile isJsSpace).reverse

/-- `generatePackageJson` (lines 147-172): `JSON.stringify(packageJson, null, 2)`. -/
def packageJsonData (c : MCPServerConfig) : List Char :=
  strL "\x7b\n  \"name\": " ++ jsonStringData c.name ++
  strL ",\n  \"version\": " ++ jsonStringData c.version ++
  strL ",\n  \"description\": \"MCP server generated from CNL specification\",\n  \"main\": \"dist/index.js\",\n  \"type\": \"module\",\n  \"scripts\": \x7b\n    \"build\": \"tsc\",\n    \"start\": \"node dist/index.js\",\n    \"dev\": \"tsc --watch\"\n  \x7d,\n  \"dependencies\": \x7b\n    \"@modelcontextprotocol/sdk\": \"^0.4.0\"\n  \x7d,\n  \"devDependencies\": \x7b\n    \"@types/node\": \"^18.0.0\",\n    \"typescript\": \"^5.0.0\"\n  \x7d\n\x7d"

/-- `generateTSConfig` (lines 326-350): a constant, model-independent text. -/
def tsconfigData : List Char :=
  strL "\x7b\n  \"compilerOptions\": \x7b\n    \"target\": \"ES2022\",\n    \"module\": \"ESNext\",\n    \"moduleResolution\": \"Node\",\n    \"outDir\": \"./dist\",\n    \"rootDir\": \"./src\",\n    \"strict\": true,\n    \"esModuleInterop\": true,\n    \"skipLibCheck\": true,\n    \"forceConsistentCasingInFileNames\": true,\n    \"declaration\": true,\n    \"declarationMap\": true,\n    \"sourceMap\": true\n  \x7d,\n  \"include\": [\n    \"src/**/*\"\n  ],\n  \"exclude\": [\n    \"node_modules\",\n    \"dist\"\n  ]\n\x7d"

/-- One import statement of the entry point (line 183). -/
def importLineData (name : String) : List Char :=
  strL "import \x7b " ++ strL name ++ strL " \x7d from './tools/" ++ strL name ++ strL ".js';"

/-- The entry point's import statements, one per tool, in model order. -/
def importLinesOf (c : MCPServerConfig) : List (List Char) :=
  c.tools.map (fun t => importLineData t.name)

/-- One property of a tool's input schema (lines 215-218). -/
def paramPropData (p : ToolParameter) : List Char :=
  strL "                " ++ strL p.name ++ strL ": \x7b\n                  type: \"" ++
  strL p.type ++ strL "\",\n                  description: \"" ++ strL p.description ++
  strL "\"\n                \x7d"

/-- The names placed in a tool's `required` array (line 220):
`tool.parameters.filter(p => p.required).map(p => p.name)`. -/
def requiredArray (t : ToolSpec) : List String :=
  (t.parameters.filter (fun p => p.required)).map (fun p => p.name)

def requiredFragData (t : ToolSpec) : List Char :=
  joinSep (strL ", ") ((requiredArray t).map (fun n => '"' :: strL n ++ ['"']))

/-- One entry of the list-tools response (lines 209-222). -/
def toolListEntryData (t : ToolSpec) : List Char :=
  strL "          \x7b\n            name: \"" ++ strL t.name ++
  strL "\",\n            description: \"" ++ strL t.description ++
  strL "\",\n            inputSchema: \x7b\n              type: \"object\",\n              properties: \x7b\n" ++
  joinSep (strL ",\n") (t.parameters.map paramPropData) ++
  strL "\n              \x7d,\n              required: [" ++ requiredFragData t ++
  strL "]\n            \x7d,\n          \x7d"

/-- One dispatch case of the call-tool handler (lines 229-230). -/
def dispatchCaseData (t : ToolSpec) : List Char :=
  strL "        case \"" ++ strL t.name ++ strL "\":\n          return await " ++
  strL t.name ++ strL "(request.params.arguments ?? \x7b\x7d);"

/-- The dispatch cases of the entry point, one per tool, in model order. -/
def dispatchCasesOf (c : MCPServerConfig) : List (List Char) :=
  c.tools.map dispatchCaseData

/-- The entry point's template literal (lines 175-252) without its leading and
trailing newline (the template starts and ends with `\n`, added back in
`serverCodeData`). -/
def serverCodeCore (c : MCPServerConfig) : List Char :=
  strL "import \x7b Server \x7d from '@modelcontextprotocol/sdk/server/index.js';\nimport \x7b StdioServerTransport \x7d from '@modelcontextprotocol/sdk/server/stdio.js';\nimport \x7b\n  ListToolsRequestSchema,\n  CallToolRequestSchema,\n\x7d from '@modelcontextprotocol/sdk/types.js';\n\n" ++
  joinSep (strL "\n") (importLinesOf c) ++
  strL "\n\nclass " ++ classNameData c.name ++
  strL "Server \x7b\n  private server: Server;\n\n  constructor() \x7b\n    this.server = new Server(\n      \x7b\n        name: \"" ++
  strL c.name ++ strL "\",\n        version: \"" ++ strL c.version ++
  strL "\",\n      \x7d,\n      \x7b\n        capabilities: \x7b\n          tools: \x7b\x7d,\n        \x7d,\n      \x7d\n    );\n\n    this.setupToolHandlers();\n    this.setupErrorHandling();\n  \x7d\n\n  private setupToolHandlers(): void \x7b\n    this.server.setRequestHandler(ListToolsRequestSchema, async () => \x7b\n      return \x7b\n        tools: [\n" ++
  joinSep (strL ",\n") (c.tools.map toolListEntryData) ++
  strL "\n        ],\n      \x7d;\n    \x7d);\n\n    this.server.setRequestHandler(CallToolRequestSchema, async (request) => \x7b\n      switch (request.params.name) \x7b\n" ++
  joinSep (strL "\n") (dispatchCasesOf c) ++
  strL "\n        default:\n          throw new Error(`Unknown tool: $\x7brequest.params.name\x7d`);\n      \x7d\n    \x7d);\n  \x7d\n\n  private setupErrorHandling(): void \x7b\n    this.server.onerror = (error) => \x7b\n      console.error('[MCP Error]', error);\n    \x7d;\n  \x7d\n\n  async run(): Promise<void> \x7b\n    " ++
  strL "const transport = new StdioServerTransport();" ++
  strL "\n    await this.server.connect(transport);\n    console.error('" ++
  strL c.name ++ strL " MCP server running on stdio');\n  \x7d\n\x7d\n\nconst server = new " ++
  classNameData c.name ++
  strL "Server();\nserver.run().catch(console.error)" ++ strL ";"

/-- The full template literal of the entry point. -/
def serverCodeData (c : MCPServerConfig) : List Char :=
  '\n' :: serverCodeCore c ++ ['\n']

/-- Content written to `src/index.ts` (line 259): `serverCode.trim()`. -/
def indexContentData (c : MCPServerConfig) : List Char :=
  trimList (serverCodeData c)

/-- One field of a stub's `Args` interface (line 276). -/
def argsFieldData (p : ToolParameter) : List Char :=
  strL "  " ++ strL p.name ++ (if p.required then [] else ['?']) ++ strL ": " ++
  strL p.type ++ [';']

/-- One field of a stub's `Result` interface (line 280). -/
def resultFieldData (r : ToolReturn) : List Char :=
  strL "  " ++ strL r.name ++ strL ": " ++ strL r.type ++ [';']

/-- One placeholder line of a stub's result object: the `switch` on
`ret.type` at lines 290-298. -/
def placeholderLineData (r : ToolReturn) : List Char :=
  if r.type = "string" then
    strL "      " ++ strL r.name ++ strL ": \"placeholder_" ++ strL r.name ++ ['"']
  else if r.type = "number" then strL "      " ++ strL r.name ++ strL ": 0"
  else if r.type = "boolean" then strL "      " ++ strL r.name ++ strL ": false"
  else if r.type = "array" then strL "      " ++ strL r.name ++ strL ": []"
  else strL "      " ++ strL r.name ++ strL ": null"

/-- A stub's template literal (lines 269-320) without its leading and trailing
newline. -/
def stubCoreData (t : ToolSpec) : List Char :=
  strL "/**" ++ strL "\n * " ++ strL t.name ++ strL " - " ++ strL t.description ++
  strL "\n * Implementation Pattern: " ++ strL t.implementationPattern ++
  strL "\n */\n\ninterface " ++ capData t.name ++ strL "Args \x7b\n" ++
  joinSep (strL "\n") (t.parameters.map argsFieldData) ++
  strL "\n\x7d\n\ninterface " ++ capData t.name ++ strL "Result \x7b\n" ++
  joinSep (strL "\n") (t.returns.map resultFieldData) ++
  strL "\n\x7d\n\nexport async function " ++ strL t.name ++ strL "(args: " ++
  capData t.name ++
  strL "Args): Promise<\x7b content: Array<\x7b type: 'text'; text: string \x7d> \x7d> \x7b\n  try \x7b\n    // TODO: Implement " ++
  strL t.implementationPattern ++ strL "\n    console.error(`[" ++ strL t.name ++
  strL "] Called with args:, JSON.stringify(args, null, 2)`);\n    \n    // Placeholder implementation\n    const result: " ++
  capData t.name ++ strL "Result = \x7b\n" ++
  joinSep (strL ",\n") (t.returns.map placeholderLineData) ++
  strL "\n    \x7d;\n    \n    return \x7b\n      content: [\n        \x7b\n          type: 'text',\n          text: JSON.stringify(result, null, 2)\n        \x7d\n      ]\n    \x7d;\n  \x7d catch (error) \x7b\n    return \x7b\n      content: [\n        \x7b\n          type: 'text',\n          text: `Error in " ++
  strL t.name ++ strL ": $\x7berror\x7d`\n        \x7d\n      ]\n    \x7d;\n  \x7d\n" ++
  strL "\x7d"

/-- Content written to `src/tools/<name>.ts` (line 322): `toolCode.trim()`. -/
def toolStubContentData (t : ToolSpec) : List Char :=
  trimList ('\n' :: stubCoreData t ++ ['\n'])

/-- Every file written by one CLI invocation (lines 133-145 then 374), in
write order: package manifest, entry point, one stub per tool, build config. -/
def generatedFiles (c : MCPServerConfig) (dir : String) : List (String × String) :=
  (dir ++ "/package.json", String.mk (packageJsonData c)) ::
  (dir ++ "/src/index.ts", String.mk (indexContentData c)) ::
  (c.tools.map (fun t =>
    (dir ++ "/src/tools/" ++ t.name ++ ".ts", String.mk (toolStubContentData t)))) ++
  [(dir ++ "/tsconfig.json", String.mk tsconfigData)]

/-- The output directory as a map from paths to file contents. -/
abbrev FileSys : Type := String → Option String

/-- `fs.writeFileSync`: overwrite one path. -/
def fsWrite (fs : FileSys) (p v : String) : FileSys :=
  fun q => if q = p then some v else fs q

def applyWrites (ws : List (String × String)) (fs : FileSys) : FileSys :=
  ws.foldl (fun acc w => fsWrite acc w.1 w.2) fs

/-- One full generator run against an output directory state. -/
def generateAll (c : MCPServerConfig) (dir : String) (fs : FileSys) : FileSys :=
  applyWrites (generatedFiles c dir) fs

/- Concrete specification texts used by counterexamples and witnesses. -/

/-- Two tool blocks sharing one name. -/
def c1DupSrc : String :=
  "TOOL_SPECIFICATION dup_tool:\nDESCRIPTION: \"a\"\nTOOL_SPECIFICATION dup_tool:\nDESCRIPTION: \"b\"\n"

/-- A tool body holding a parameter list but no `RETURNS:` label. -/
def c4BodyNoR : String :=
  "PARAMETERS:\n- x: string (required) \"d\"\n"

/-- The same body followed by a `RETURNS:` label. -/
def c4BodyWithR : String :=
  "PARAMETERS:\n- x: string (required) \"d\"\nRETURNS:"

/-- One tool whose parameter list declares the name `x` twice, once required
and once optional. -/
def c5Src : String :=
  "TOOL_SPECIFICATION t:\nPARAMETERS:\n- x: string (required) \"a\"\n- x: string (optional) \"b\"\nRETURNS:\n"

/- Supporting lemmas. -/

/-- The descriptor-accumulating loop of `parseCNLFile` (push per match) is a
map over the match list. -/
theorem foldl_push_eq_map {α β : Type} (g : α → β) :
    ∀ (l : List α) (acc : List β),
      l.foldl (fun a x => a ++ [g x]) acc = acc ++ l.map g
  | [], acc => by simp
  | x :: t, acc => by
    simp only [List.foldl_cons, List.map_cons]
    rw [foldl_push_eq_map g t (acc ++ [g x])]
    simp

/- Claim C1.  The source never checks tool-name uniqueness: `parseCNLFile`
accumulates one descriptor per block and returns the model unconditionally. -/

/-- C1 counterexample: on a specification with two tool blocks sharing the
name `dup_tool`, parse returns a model whose tool-name list is not
duplicate-free — no `DuplicateToolName` error exists in the code. -/
theorem c1_counterexample :
    ((parseCNL c1DupSrc).tools.map (fun t => t.name))
        = ["dup_tool", "dup_tool"] ∧
      ¬ ((parseCNL c1DupSrc).tools.map (fun t => t.name)).Nodup := by
  constructor
  · decide
  · decide

/-- C1 amended: parse performs no uniqueness check at all — the model carries
one descriptor per tool block with the block's captured name taken verbatim,
duplicates included. -/
theorem c1_amended_one_name_per_block (content : String) :
    (parseCNL content).tools.map (fun t => t.name)
      = (scanToolBlocks (strL content)).map (fun m => String.mk m.1) := by
  simp only [parseCNL]
  rw [foldl_push_eq_map (fun m => parseTool m.1 m.2) (scanToolBlocks (strL content)) [],
    List.nil_append, List.map_map]
  rfl

/- Claim C3.  No `MalformedSpecification` failure path exists: a missing
configuration block (and missing fields) degrade to defaults and a model is
always returned. -/

/-- C3 counterexample: the empty source text — in which every block required
by the specification is absent — still yields a model, with default metadata
and an empty tool list, instead of a `MalformedSpecification` error. -/
theorem c3_counterexample :
    parseCNL ""
      = ⟨"generated-mcp-server", "0.1.0", "stdio", ["tools", "resources"], []⟩ := by
  decide

/-- C3 amended: parse is total; when the configuration block is absent the
returned model carries the three metadata defaults and the tools scanned from
the text. -/
theorem c3_amended_total_with_defaults (content : String)
    (h : findSectionToEnd litMCPCONFIG litGENRULES (strL content) = none) :
    parseCNL content
      = ⟨"generated-mcp-server", "0.1.0", "stdio", ["tools", "resources"],
         (scanToolBlocks (strL content)).map (fun m => parseTool m.1 m.2)⟩ := by
  simp only [parseCNL, configContentOf, h]
  rw [foldl_push_eq_map (fun m => parseTool m.1 m.2) (scanToolBlocks (strL content)) []]
  simp [findLabeledQuoted]

theorem c3_amended_witness :
    findSectionToEnd litMCPCONFIG litGENRULES (strL "hello") = none ∧
    parseCNL "hello"
      = ⟨"generated-mcp-server", "0.1.0", "stdio", ["tools", "resources"],
         (scanToolBlocks (strL "hello")).map (fun m => parseTool m.1 m.2)⟩ :=
  ⟨by decide, c3_amended_total_with_defaults "hello" (by decide)⟩

/- Claim C8.  Metadata defaults (lines 75-85). -/

/-- C8: whenever a metadata field's pattern finds no match in the
configuration content, the corresponding model field is the documented
default, and parse still returns a model (it is total by construction). -/
theorem c8_metadata_defaults (content : String) :
    (findLabeledQuoted litNAME (configContentOf content) = none →
      (parseCNL content).name = "generated-mcp-server") ∧
    (findLabeledQuoted litVERSION (configContentOf content) = none →
      (parseCNL content).version = "0.1.0") ∧
    (findLabeledQuoted litTRANSPORT (configContentOf content) = none →
      (parseCNL content).transport = "stdio") := by
  refine ⟨fun h => ?_, fun h => ?_, fun h => ?_⟩ <;> simp [parseCNL, h]

theorem c8_metadata_defaults_witness :
    (findLabeledQuoted litNAME (configContentOf "MCP_SERVER_CONFIGURATION:\n") = none ∧
     findLabeledQuoted litVERSION (configContentOf "MCP_SERVER_CONFIGURATION:\n") = none ∧
     findLabeledQuoted litTRANSPORT (configContentOf "MCP_SERVER_CONFIGURATION:\n") = none) ∧
    (parseCNL "MCP_SERVER_CONFIGURATION:\n").name = "generated-mcp-server" ∧
    (parseCNL "MCP_SERVER_CONFIGURATION:\n").version = "0.1.0" ∧
    (parseCNL "MCP_SERVER_CONFIGURATION:\n").transport = "stdio" :=
  ⟨⟨by decide, by decide, by decide⟩,
   (c8_metadata_defaults "MCP_SERVER_CONFIGURATION:\n").1 (by decide),
   (c8_metadata_defaults "MCP_SERVER_CONFIGURATION:\n").2.1 (by decide),
   (c8_metadata_defaults "MCP_SERVER_CONFIGURATION:\n").2.2 (by decide)⟩

/- Occurrence lemmas: a section regex cannot match when its start or stop
literal does not occur in the text. -/

theorem containsLit_false_head {lit : List Char} {c : Char} {s : List Char}
    (h : containsLit lit (c :: s) = false) :
    lit.isPrefixOf (c :: s) = false ∧ containsLit lit s = false := by
  simp only [containsLit, Bool.or_eq_false_iff] at h
  exact h

theorem takeUntilLit_eq_none (lit : List Char) :
    ∀ s, containsLit lit s = false → takeUntilLit lit s = none := by
  intro s
  induction s with
  | nil =>
    intro h
    simp only [containsLit] at h
    simp [takeUntilLit, h]
  | cons c s' ih =>
    intro h
    obtain ⟨h1, h2⟩ := containsLit_false_head h
    simp [takeUntilLit, h1, ih h2]

theorem containsLit_false_drop (lit : List Char) :
    ∀ (s : List Char) (n : Nat), containsLit lit s = false →
      containsLit lit (s.drop n) = false := by
  intro s
  induction s with
  | nil => intro n h; simpa using h
  | cons c s' ih =>
    intro n h
    obtain ⟨h1, h2⟩ := containsLit_false_head h
    cases n with
    | zero => exact h
    | succ m => simpa using ih m h2

theorem findSection_eq_none_of_no_stop (start stop : List Char) :
    ∀ s, containsLit stop s = false → findSection start stop s = none := by
  intro s
  induction s with
  | nil => intro h; rfl
  | cons c s' ih =>
    intro h
    have h2 := (containsLit_false_head h).2
    by_cases hp : start.isPrefixOf (c :: s') = true
    · have hdrop := containsLit_false_drop stop (c :: s') start.length h
      simp [findSection, hp, takeUntilLit_eq_none stop _ hdrop, ih h2]
    · simp only [Bool.not_eq_true] at hp
      simp [findSection, hp, ih h2]

theorem findSection_eq_none_of_no_start (start stop : List Char) :
    ∀ s, containsLit start s = false → findSection start stop s = none := by
  intro s
  induction s with
  | nil => intro h; rfl
  | cons c s' ih =>
    intro h
    obtain ⟨h1, h2⟩ := containsLit_false_head h
    simp [findSection, h1, ih h2]

/- Claim C4.  The four sub-sections are not extracted independently: the
parameter section regex (line 90) only matches when a `RETURNS:` label occurs
after `PARAMETERS:`, and the return section regex (line 113) only matches when
an `IMPLEMENTATION_PATTERN:` label follows `RETURNS:`. -/

/-- C4 counterexample: one identical parameter list yields no parameters when
the body lacks a `RETURNS:` label, and one parameter when the label is
appended — so `PARAMETERS` extraction is not independent of the presence of
the other sub-sections. -/
theorem c4_counterexample :
    parseParameters (strL c4BodyNoR) = [] ∧
    parseParameters (strL c4BodyWithR) = [⟨"x", "string", true, "d"⟩] := by
  constructor
  · decide
  · decide

/-- C4 amended: an absent `PARAMETERS` sub-section still yields an empty
parameter list rather than an error, but extraction is only independent for
the two quoted-string sub-sections — `PARAMETERS` additionally requires a
following `RETURNS:` label, and `RETURNS` a following
`IMPLEMENTATION_PATTERN:` label, otherwise the extracted list is empty. -/
theorem c4_amended_section_dependence (body : List Char) :
    (containsLit litPARAMETERS body = false → parseParameters body = []) ∧
    (containsLit litRETURNS body = false → parseParameters body = []) ∧
    (containsLit litRETURNS body = false → parseReturns body = []) ∧
    (containsLit litIMPLPATTERN body = false → parseReturns body = []) := by
  refine ⟨fun h => ?_, fun h => ?_, fun h => ?_, fun h => ?_⟩
  · simp [parseParameters, findSection_eq_none_of_no_start _ _ body h]
  · simp [parseParameters, findSection_eq_none_of_no_stop _ _ body h]
  · simp [parseReturns, findSection_eq_none_of_no_start _ _ body h]
  · simp [parseReturns, findSection_eq_none_of_no_stop _ _ body h]

theorem c4_amended_witness :
    (containsLit litPARAMETERS (strL "DESCRIPTION: \"d\"") = false ∧
     containsLit litRETURNS (strL "DESCRIPTION: \"d\"") = false ∧
     containsLit litIMPLPATTERN (strL "DESCRIPTION: \"d\"") = false) ∧
    parseParameters (strL "DESCRIPTION: \"d\"") = [] ∧
    parseReturns (strL "DESCRIPTION: \"d\"") = [] :=
  ⟨⟨by decide, by decide, by decide⟩,
   (c4_amended_section_dependence (strL "DESCRIPTION: \"d\"")).1 (by decide),
   (c4_amended_section_dependence (strL "DESCRIPTION: \"d\"")).2.2.1 (by decide)⟩

/- Claim C5.  The `required` array (line 220) is the ordered list of names of
parameters whose flag is true; a name shared between a required and an
optional parameter therefore still appears. -/

/-- C5 counterexample: a parsed tool whose parameter list declares the name
`x` once required and once optional; the optional parameter's name does
appear in the tool's required-name array. -/
theorem c5_counterexample :
    ∃ t ∈ (parseCNL c5Src).tools, ∃ p ∈ t.parameters,
      p.required = false ∧ p.name ∈ requiredArray t := by
  decide

/-- C5 amended: the required-name array contains exactly the names of the
parameters whose `required` flag is true (in parameter order) — a name is in
the array precisely when some required parameter bears it, so an optional
parameter's name is absent unless a required parameter shares that name. -/
theorem c5_amended_required_members (t : ToolSpec) (n : String) :
    n ∈ requiredArray t ↔ ∃ p ∈ t.parameters, p.required = true ∧ p.name = n := by
  simp [requiredArray, List.mem_filter, and_assoc]

/- Claim C6.  The generator is a pure function of the model, and rewriting
the same contents is idempotent on the output directory. -/

theorem applyWrites_apply (ws : List (String × String)) (fs : FileSys) (q : String) :
    applyWrites ws fs q =
      (match ws.reverse.find? (fun w => w.1 == q) with
       | some w => some w.2
       | none => fs q) := by
  induction ws generalizing fs with
  | nil => rfl
  | cons w t ih =>
    show applyWrites t (fsWrite fs w.1 w.2) q = _
    rw [ih, List.reverse_cons, List.find?_append]
    cases hf : t.reverse.find? (fun u => u.1 == q) with
    | some u => simp [hf, Option.orElse]
    | none =>
      simp only [hf, Option.orElse, Option.none_orElse]
      simp only [List.find?]
      by_cases hq : w.1 = q
      · simp [hq, fsWrite]
      · have hq2 : (w.1 == q) = false := by simp [hq]
        simp [hq2, fsWrite, Ne.symm hq]

/-- C6: one generator run is deterministic in the model, and running it a
second time on the unchanged model and output directory rewrites every
emitted file with byte-identical contents, leaving the directory state
unchanged (no timestamps or random identifiers occur in any template). -/
theorem c6_generation_idempotent (c : MCPServerConfig) (dir : String) (fs : FileSys) :
    generateAll c dir (generateAll c dir fs) = generateAll c dir fs := by
  funext q
  show applyWrites (generatedFiles c dir) (applyWrites (generatedFiles c dir) fs) q
      = applyWrites (generatedFiles c dir) fs q
  rw [applyWrites_apply, applyWrites_apply]
  cases hf : (generatedFiles c dir).reverse.find? (fun w => w.1 == q) with
  | some u => simp [hf]
  | none => simp [hf]

/- Claim C7.  One descriptor per tool block, in source order; that order
fixes the entry point's import lines and dispatch cases. -/

/-- C7: the model's tool list has exactly one descriptor per tool-block
match, in source-text order, and the i-th import line and i-th dispatch case
of the generated entry point are built from the i-th tool. -/
theorem c7_order_preserved (content : String) (i : Nat) :
    (parseCNL content).tools.length = (scanToolBlocks (strL content)).length ∧
    (parseCNL content).tools[i]?
      = ((scanToolBlocks (strL content))[i]?).map (fun m => parseTool m.1 m.2) ∧
    (importLinesOf (parseCNL content))[i]?
      = ((parseCNL content).tools[i]?).map (fun t => importLineData t.name) ∧
    (dispatchCasesOf (parseCNL content))[i]?
      = ((parseCNL content).tools[i]?).map dispatchCaseData := by
  have htools : (parseCNL content).tools
      = (scanToolBlocks (strL content)).map (fun m => parseTool m.1 m.2) := by
    simp only [parseCNL]
    rw [foldl_push_eq_map (fun m => parseTool m.1 m.2) (scanToolBlocks (strL content)) [],
      List.nil_append]
  refine ⟨?_, ?_, ?_, ?_⟩
  · rw [htools, List.length_map]
  · rw [htools, List.getElem?_map]
  · rw [importLinesOf, List.getElem?_map]
  · rw [dispatchCasesOf, List.getElem?_map]

/- Trim lemmas: the two emitted `.trim()` calls only strip the template
literal's leading and trailing newline, because every rendered template body
starts and ends with a non-whitespace character. -/

theorem head?_append_left {l1 l2 : List Char} {a : Char} (h : l1.head? = some a) :
    (l1 ++ l2).head? = some a := by
  cases l1 with
  | nil => simp at h
  | cons x t => simpa using h

theorem getLast?_append_right {l1 l2 : List Char} {b : Char}
    (h : l2.getLast? = some b) : (l1 ++ l2).getLast? = some b := by
  rw [← List.head?_reverse, List.reverse_append]
  exact head?_append_left (by rw [List.head?_reverse]; exact h)

theorem trim_wrap (a b : Char) (t w : List Char) (ha : isJsSpace a = false)
    (hb : isJsSpace b = false) (h : a :: t = w ++ [b]) :
    trimList ('\n' :: (a :: t) ++ ['\n']) = a :: t := by
  have pn : isJsSpace '\n' = true := by decide
  have e1 : ('\n' :: ((a :: t) ++ ['\n'])).dropWhile isJsSpace
      = ((a :: t) ++ ['\n']).dropWhile isJsSpace := by
    rw [List.dropWhile_cons, pn]
    simp
  have e2 : ((a :: t) ++ ['\n']).dropWhile isJsSpace = (a :: t) ++ ['\n'] := by
    rw [List.cons_append, List.dropWhile_cons, ha]
    simp
  have e3 : ((a :: t) ++ ['\n']).reverse = '\n' :: (a :: t).reverse := by
    rw [List.reverse_append]
    rfl
  have e4 : (a :: t).reverse = b :: w.reverse := by
    rw [h, List.reverse_append]
    rfl
  have e5 : ('\n' :: (a :: t).reverse).dropWhile isJsSpace = (a :: t).reverse := by
    rw [List.dropWhile_cons, pn]
    simp only [if_true]
    rw [e4, List.dropWhile_cons, hb]
    simp [e4]
  show ((('\n' :: ((a :: t) ++ ['\n'])).dropWhile isJsSpace).reverse.dropWhile
      isJsSpace).reverse = a :: t
  rw [e1, e2, e3, e5, List.reverse_reverse]

theorem trimList_wrap (l : List Char)
    (h1 : ∀ x, l.head? = some x → isJsSpace x = false)
    (h2 : ∀ x, l.getLast? = some x → isJsSpace x = false) :
    trimList ('\n' :: l ++ ['\n']) = l := by
  cases l with
  | nil => decide
  | cons a t =>
    have ha := h1 a rfl
    cases hr : (a :: t).reverse with
    | nil => exact absurd (congrArg List.length hr) (by simp)
    | cons b rt =>
      have hb : isJsSpace b = false := by
        refine h2 b ?_
        rw [← List.head?_reverse, hr]
        rfl
      have hl : a :: t = rt.reverse ++ [b] := by
        have hc := congrArg List.reverse hr
        rw [List.reverse_reverse] at hc
        rw [hc, List.reverse_cons]
      exact trim_wrap a b t rt.reverse ha hb hl

/-- Peel one trailing fragment off an infix decomposition. -/
theorem infix_append_left {A f : List Char} (B : List Char)
    (h : ∃ p q, A = p ++ f ++ q) : ∃ p q, A ++ B = p ++ f ++ q := by
  obtain ⟨p, q, rfl⟩ := h
  exact ⟨p, q ++ B, by simp⟩

theorem infix_at_right (X f : List Char) : ∃ p q, X ++ f = p ++ f ++ q :=
  ⟨X, [], by simp⟩

/- Claim C10.  No template reads the model's transport field, and the entry
point always wires a stdio transport. -/


/- Claim C10.  No template reads the model's transport field, and the entry
point always wires a stdio transport. -/

set_option maxHeartbeats 1000000 in
/-- C10: every emitted artifact is unchanged when only the model's transport
field differs, and the generated entry point always contains the statement
constructing a stdio transport. -/
theorem c10_transport_independent (c : MCPServerConfig) (tr dir : String) :
    generatedFiles ⟨c.name, c.version, tr, c.capabilities, c.tools⟩ dir
        = generatedFiles c dir ∧
    ∃ pre post, indexContentData c
        = pre ++ strL "const transport = new StdioServerTransport();" ++ post := by
  constructor
  · cases c
    rfl
  · have hh : (serverCodeCore c).head? = some 'i' := by
      unfold serverCodeCore
      iterate 19 apply head?_append_left
      decide
    have hl : (serverCodeCore c).getLast? = some ';' := by
      unfold serverCodeCore
      apply getLast?_append_right
      decide
    have hs1 : ∀ x, (serverCodeCore c).head? = some x → isJsSpace x = false := by
      intro x hx
      have h2 : ('i' : Char) = x := Option.some.inj (hh.symm.trans hx)
      rw [← h2]
      decide
    have hs2 : ∀ x, (serverCodeCore c).getLast? = some x → isJsSpace x = false := by
      intro x hx
      have h2 : (';' : Char) = x := Option.some.inj (hl.symm.trans hx)
      rw [← h2]
      decide
    have hidx : indexContentData c = serverCodeCore c := by
      show trimList ('\n' :: serverCodeCore c ++ ['\n']) = serverCodeCore c
      exact trimList_wrap (serverCodeCore c) hs1 hs2
    rw [hidx]
    unfold serverCodeCore
    iterate 6 apply infix_append_left
    exact infix_at_right _ _

/- Placeholder-line containment machinery shared by the stub claims. -/

/-- Re-embed an infix decomposition of the right part of an append. -/
theorem infix_in_right {B f : List Char} (A : List Char)
    (h : ∃ p q, B = p ++ f ++ q) : ∃ p q, A ++ B = p ++ f ++ q := by
  obtain ⟨p, q, rfl⟩ := h
  exact ⟨A ++ p, q, by simp⟩

/-- Every element's rendering occurs inside a `join`. -/
theorem joinSep_mem_infix {α : Type} (sep : List Char) (f : α → List Char) :
    ∀ (l : List α) (x : α), x ∈ l → ∃ p q, joinSep sep (l.map f) = p ++ f x ++ q := by
  intro l
  induction l with
  | nil => intro x hx; cases hx
  | cons y t ih =>
    intro x hx
    cases t with
    | nil =>
      have hxy : x = y := by simpa using hx
      subst hxy
      exact ⟨[], [], by simp [joinSep]⟩
    | cons z t2 =>
      rcases List.mem_cons.mp hx with hxy | hxt
      · subst hxy
        refine ⟨[], sep ++ joinSep sep ((z :: t2).map f), ?_⟩
        simp [joinSep, List.append_assoc]
      · obtain ⟨p, q, hpq⟩ := ih x hxt
        refine ⟨f y ++ sep ++ p, q, ?_⟩
        simp only [List.map_cons, joinSep] at hpq ⊢
        rw [hpq]
        simp [List.append_assoc]

set_option maxHeartbeats 1000000 in
/-- The stub's `trim()` only strips the template's outer newlines. -/
theorem toolStub_trim (t : ToolSpec) : toolStubContentData t = stubCoreData t := by
  have hh : (stubCoreData t).head? = some '/' := by
    unfold stubCoreData
    iterate 30 apply head?_append_left
    decide
  have hl : (stubCoreData t).getLast? = some '\x7d' := by
    unfold stubCoreData
    apply getLast?_append_right
    decide
  have hs1 : ∀ x, (stubCoreData t).head? = some x → isJsSpace x = false := by
    intro x hx
    have h2 : ('/' : Char) = x := Option.some.inj (hh.symm.trans hx)
    rw [← h2]
    decide
  have hs2 : ∀ x, (stubCoreData t).getLast? = some x → isJsSpace x = false := by
    intro x hx
    have h2 : ('\x7d' : Char) = x := Option.some.inj (hl.symm.trans hx)
    rw [← h2]
    decide
  show trimList ('\n' :: stubCoreData t ++ ['\n']) = stubCoreData t
  exact trimList_wrap (stubCoreData t) hs1 hs2

set_option maxHeartbeats 1000000 in
/-- Every declared return field's placeholder line occurs in the emitted
stub. -/
theorem stub_contains_placeholder (t : ToolSpec) (ret : ToolReturn)
    (h : ret ∈ t.returns) :
    ∃ p q, toolStubContentData t = p ++ placeholderLineData ret ++ q := by
  rw [toolStub_trim]
  unfold stubCoreData
  iterate 4 apply infix_append_left
  apply infix_in_right
  exact joinSep_mem_infix (strL ",\n") placeholderLineData t.returns ret h

/- Claim C2.  The string placeholder is not the empty string and not a
function of the kind alone: the emitted value embeds the field's name. -/

/-- C2 counterexample: a string return field named `response` receives the
placeholder value `"placeholder_response"`, not the claimed empty string, so
the placeholder is not the mechanical default and depends on the field's
name, not only on its kind. -/
theorem c2_counterexample :
    placeholderLineData ⟨"response", "string", "d"⟩
        = strL "      response: \"placeholder_response\"" ∧
    placeholderLineData ⟨"response", "string", "d"⟩
        ≠ strL "      response: \"\"" := by
  constructor
  · decide
  · decide

set_option maxHeartbeats 1000000 in
/-- C2 amended: every declared return field receives a placeholder line in
the stub body chosen by its kind word — `"placeholder_<name>"` (embedding the
field's name) for `string`, `0` for `number`, `false` for `boolean`, `[]` for
the kind word `array`, and `null` for every other kind word. -/
theorem c2_amended_placeholder_lines (t : ToolSpec) (ret : ToolReturn)
    (hret : ret ∈ t.returns) :
    ∃ pre post, toolStubContentData t
      = pre ++
        (strL "      " ++ strL ret.name ++ strL ": " ++
          (if ret.type = "string" then strL "\"placeholder_" ++ strL ret.name ++ strL "\""
           else if ret.type = "number" then strL "0"
           else if ret.type = "boolean" then strL "false"
           else if ret.type = "array" then strL "[]"
           else strL "null")) ++ post := by
  have hline : placeholderLineData ret
      = strL "      " ++ strL ret.name ++ strL ": " ++
          (if ret.type = "string" then strL "\"placeholder_" ++ strL ret.name ++ strL "\""
           else if ret.type = "number" then strL "0"
           else if ret.type = "boolean" then strL "false"
           else if ret.type = "array" then strL "[]"
           else strL "null") := by
    by_cases h1 : ret.type = "string"
    · have e1 : strL ": \"placeholder_" = strL ": " ++ strL "\"placeholder_" := by decide
      have e2 : (['"'] : List Char) = strL "\"" := by decide
      simp only [placeholderLineData, h1, if_true, if_pos]
      rw [e1, e2]
      simp [List.append_assoc]
    · by_cases h2 : ret.type = "number"
      · have e1 : strL ": 0" = strL ": " ++ strL "0" := by decide
        simp only [placeholderLineData, h1, h2, if_false, if_true, if_pos]
        rw [e1]
        simp [List.append_assoc, h1]
      · by_cases h3 : ret.type = "boolean"
        · have e1 : strL ": false" = strL ": " ++ strL "false" := by decide
          simp only [placeholderLineData, h1, h2, h3]
          rw [e1]
          simp [List.append_assoc, h1, h2]
        · by_cases h4 : ret.type = "array"
          · have e1 : strL ": []" = strL ": " ++ strL "[]" := by decide
            simp only [placeholderLineData, h1, h2, h3, h4]
            rw [e1]
            simp [List.append_assoc, h1, h2, h3]
          · have e1 : strL ": null" = strL ": " ++ strL "null" := by decide
            simp only [placeholderLineData, h1, h2, h3, h4]
            rw [e1]
            simp [List.append_assoc, h1, h2, h3, h4]
  rw [← hline]
  exact stub_contains_placeholder t ret hret

theorem c2_amended_witness :
    (⟨"n", "number", "d"⟩ : ToolReturn)
        ∈ (⟨"t", "", [], [⟨"n", "number", "d"⟩], ""⟩ : ToolSpec).returns ∧
    ∃ pre post,
      toolStubContentData ⟨"t", "", [], [⟨"n", "number", "d"⟩], ""⟩
        = pre ++
          (strL "      " ++ strL "n" ++ strL ": " ++
            (if ("number" : String) = "string" then strL "\"placeholder_" ++ strL "n" ++ strL "\""
             else if ("number" : String) = "number" then strL "0"
             else if ("number" : String) = "boolean" then strL "false"
             else if ("number" : String) = "array" then strL "[]"
             else strL "null")) ++ post :=
  ⟨by decide,
   c2_amended_placeholder_lines ⟨"t", "", [], [⟨"n", "number", "d"⟩], ""⟩
     ⟨"n", "number", "d"⟩ (by decide)⟩

/- Claim C9.  The kind position of a list line is captured by `\w+` with no
validation against the type union (the source casts with `as any`), and a
return field with any other kind word receives the `null` placeholder. -/

/-- Greedy character-class capture ends exactly at the first stop
character. -/
theorem takeWhile_append_stop (p : Char → Bool) :
    ∀ (xs : List Char) (y : Char) (ys : List Char),
      (∀ c ∈ xs, p c = true) → p y = false →
      (xs ++ y :: ys).takeWhile p = xs := by
  intro xs
  induction xs with
  | nil =>
    intro y ys h hy
    simp [List.takeWhile_cons, hy]
  | cons a t ih =>
    intro y ys h hy
    have ha := h a (by simp)
    simp only [List.cons_append, List.takeWhile_cons, ha, if_true]
    rw [ih y ys (fun c hc => h c (by simp [hc])) hy]

set_option maxHeartbeats 1000000 in
/-- C9: a parameter or return list line whose kind position holds any
word-character run is matched, the word is carried verbatim into the built
`ToolParameter`/`ToolReturnField`, and a return field whose kind is none of
`string`, `number`, `boolean`, `array` (for instance the specification's own
kind word `list`) gets the placeholder value `null` in the emitted stub. -/
theorem c9_no_kind_validation (name kind req desc tail : List Char)
    (t : ToolSpec) (ret : ToolReturn)
    (hn0 : name ≠ []) (hn : ∀ c ∈ name, isWordChar c = true)
    (hk0 : kind ≠ []) (hk : ∀ c ∈ kind, isWordChar c = true)
    (hr0 : req ≠ []) (hr : ∀ c ∈ req, isWordChar c = true)
    (hd0 : desc ≠ []) (hd : ∀ c ∈ desc, (c == '"') = false)
    (hret : ret ∈ t.returns)
    (htype : ret.type ∉ (["string", "number", "boolean", "array"] : List String)) :
    matchParamLine
        ('-' :: ' ' ::
          (name ++ ':' :: ' ' ::
            (kind ++ ' ' :: '(' ::
              (req ++ ')' :: ' ' :: '"' :: (desc ++ '"' :: tail)))))
      = some (⟨name, kind, req, desc⟩, tail) ∧
    matchReturnLine
        ('-' :: ' ' ::
          (name ++ ':' :: ' ' ::
            (kind ++ ' ' :: '"' :: (desc ++ '"' :: tail))))
      = some (⟨name, kind, desc⟩, tail) ∧
    (paramOfCapture ⟨name, kind, req, desc⟩).type = String.mk kind ∧
    (returnOfCapture ⟨name, kind, desc⟩).type = String.mk kind ∧
    ∃ pre post, toolStubContentData t
      = pre ++ (strL "      " ++ strL ret.name ++ strL ": null") ++ post := by
  obtain ⟨h1, h2, h3, h4⟩ :
      ret.type ≠ "string" ∧ ret.type ≠ "number" ∧ ret.type ≠ "boolean" ∧
        ret.type ≠ "array" := by
    simpa using htype
  refine ⟨?_, ?_, rfl, rfl, ?_⟩
  · have e1 := takeWhile_append_stop isWordChar name ':'
      (' ' :: (kind ++ ' ' :: '(' :: (req ++ ')' :: ' ' :: '"' :: (desc ++ '"' :: tail))))
      hn (by decide)
    have d1 := List.drop_left name
      (':' :: ' ' :: (kind ++ ' ' :: '(' :: (req ++ ')' :: ' ' :: '"' :: (desc ++ '"' :: tail))))
    have e3 := takeWhile_append_stop isWordChar kind ' '
      ('(' :: (req ++ ')' :: ' ' :: '"' :: (desc ++ '"' :: tail))) hk (by decide)
    have d3 := List.drop_left kind
      (' ' :: '(' :: (req ++ ')' :: ' ' :: '"' :: (desc ++ '"' :: tail)))
    have e5 := takeWhile_append_stop isWordChar req ')'
      (' ' :: '"' :: (desc ++ '"' :: tail)) hr (by decide)
    have d5 := List.drop_left req (')' :: ' ' :: '"' :: (desc ++ '"' :: tail))
    have e7 := takeWhile_append_stop (fun c => !(c == '"')) desc '"' tail
      (fun c hc => by simp [hd c hc]) (by decide)
    have d7 := List.drop_left desc ('"' :: tail)
    simp only [matchParamLine, e1, d1, e3, d3, e5, d5, e7, d7, hn0, hk0, hr0, hd0,
      if_false]
  · have e1 := takeWhile_append_stop isWordChar name ':'
      (' ' :: (kind ++ ' ' :: '"' :: (desc ++ '"' :: tail))) hn (by decide)
    have d1 := List.drop_left name
      (':' :: ' ' :: (kind ++ ' ' :: '"' :: (desc ++ '"' :: tail)))
    have e3 := takeWhile_append_stop isWordChar kind ' '
      ('"' :: (desc ++ '"' :: tail)) hk (by decide)
    have d3 := List.drop_left kind (' ' :: '"' :: (desc ++ '"' :: tail))
    have e5 := takeWhile_append_stop (fun c => !(c == '"')) desc '"' tail
      (fun c hc => by simp [hd c hc]) (by decide)
    have d5 := List.drop_left desc ('"' :: tail)
    simp only [matchReturnLine, e1, d1, e3, d3, e5, d5, hn0, hk0, hd0, if_false]
  · have hline : placeholderLineData ret
        = strL "      " ++ strL ret.name ++ strL ": null" := by
      simp only [placeholderLineData, h1, h2, h3, h4, if_false]
    rw [← hline]
    exact stub_contains_placeholder t ret hret

theorem c9_witness :
    ((strL "count" ≠ [] ∧ ∀ c ∈ strL "count", isWordChar c = true) ∧
     (strL "list" ≠ [] ∧ ∀ c ∈ strL "list", isWordChar c = true) ∧
     (strL "optional" ≠ [] ∧ ∀ c ∈ strL "optional", isWordChar c = true) ∧
     (strL "how many" ≠ [] ∧ ∀ c ∈ strL "how many", (c == '"') = false) ∧
     (⟨"flags", "list", "d"⟩ : ToolReturn)
        ∈ (⟨"t", "", [], [⟨"flags", "list", "d"⟩], ""⟩ : ToolSpec).returns ∧
     ("list" : String) ∉ (["string", "number", "boolean", "array"] : List String)) ∧
    matchParamLine
        ('-' :: ' ' ::
          (strL "count" ++ ':' :: ' ' ::
            (strL "list" ++ ' ' :: '(' ::
              (strL "optional" ++ ')' :: ' ' :: '"' :: (strL "how many" ++ '"' :: ([] : List Char))))))
      = some (⟨strL "count", strL "list", strL "optional", strL "how many"⟩, ([] : List Char)) ∧
    ∃ pre post,
      toolStubContentData ⟨"t", "", [], [⟨"flags", "list", "d"⟩], ""⟩
        = pre ++ (strL "      " ++ strL "flags" ++ strL ": null") ++ post :=
  ⟨⟨⟨by decide, by decide⟩, ⟨by decide, by decide⟩, ⟨by decide, by decide⟩,
    ⟨by decide, by decide⟩, by decide, by decide⟩,
   (c9_no_kind_validation (strL "count") (strL "list") (strL "optional")
      (strL "how many") [] ⟨"t", "", [], [⟨"flags", "list", "d"⟩], ""⟩
      ⟨"flags", "list", "d"⟩ (by decide) (by decide) (by decide) (by decide)
      (by decide) (by decide) (by decide) (by decide) (by decide) (by decide)).1,
   (c9_no_kind_validation (strL "count") (strL "list") (strL "optional")
      (strL "how many") [] ⟨"t", "", [], [⟨"flags", "list", "d"⟩], ""⟩
      ⟨"flags", "list", "d"⟩ (by decide) (by decide) (by decide) (by decide)
      (by decide) (by decide) (by decide) (by decide) (by decide) (by decide)).2.2.2.2⟩

/- Fuel adequacy: every successful match consumes at least one character, so
the fuel `s.length` supplied by `scanAll` never runs out and the fuel
parameter is semantically irrelevant. -/

theorem matchToolHeader_consumes (s nm after : List Char)
    (h : matchToolHeader s = some (nm, after)) : after.length < s.length := by
  simp only [matchToolHeader] at h
  split at h
  · split at h
    · simp at h
    · split at h
      · simp at h
      · split at h
        · injection h with h1
          obtain ⟨h2, h3⟩ := Prod.mk.inj h1
          subst h3
          rename_i heq
          have hlen := congrArg List.length heq
          simp only [List.length_drop, List.length_cons] at hlen
          omega
        · simp at h
  · simp at h

theorem matchToolBlock_consumes (s : List Char) (m : List Char × List Char)
    (rest : List Char) (h : matchToolBlock s = some (m, rest)) :
    rest.length < s.length := by
  simp only [matchToolBlock] at h
  split at h
  · simp at h
  · rename_i nm after heq
    injection h with h1
    obtain ⟨h2, h3⟩ := Prod.mk.inj h1
    subst h3
    have hlt := matchToolHeader_consumes s nm after heq
    simp only [List.length_drop]
    omega

theorem matchParamLine_consumes (s : List Char) (cap : ParamCap) (rest : List Char)
    (h : matchParamLine s = some (cap, rest)) : rest.length < s.length := by
  simp only [matchParamLine] at h
  split at h
  · split at h
    · simp at h
    · split at h
      · split at h
        · simp at h
        · split at h
          · split at h
            · simp at h
            · split at h
              · split at h
                · simp at h
                · split at h
                  · rename_i b1 b2 b3 b4 b5 e1 b6 b7 b8 e2 b9 b10 b11 e3 b12 b13 b14 e4
                    injection h with h1
                    obtain ⟨h2, h3⟩ := Prod.mk.inj h1
                    subst h3
                    have l1 := congrArg List.length e1
                    have l2 := congrArg List.length e2
                    have l3 := congrArg List.length e3
                    have l4 := congrArg List.length e4
                    simp only [List.length_drop, List.length_cons] at l1 l2 l3 l4
                    simp only [List.length_cons]
                    omega
                  · simp at h
              · simp at h
          · simp at h
      · simp at h
  · simp at h

theorem matchReturnLine_consumes (s : List Char) (cap : ReturnCap) (rest : List Char)
    (h : matchReturnLine s = some (cap, rest)) : rest.length < s.length := by
  simp only [matchReturnLine] at h
  split at h
  · split at h
    · simp at h
    · split at h
      · split at h
        · simp at h
        · split at h
          · split at h
            · simp at h
            · split at h
              · rename_i b1 b2 b3 b4 b5 e1 b6 b7 b8 e2 b9 b10 b11 e3
                injection h with h1
                obtain ⟨h2, h3⟩ := Prod.mk.inj h1
                subst h3
                have l1 := congrArg List.length e1
                have l2 := congrArg List.length e2
                have l3 := congrArg List.length e3
                simp only [List.length_drop, List.length_cons] at l1 l2 l3
                simp only [List.length_cons]
                omega
              · simp at h
          · simp at h
      · simp at h
  · simp at h

theorem scanF_fuel_irrel {α : Type} (M : List Char → Option (α × List Char))
    (hM : ∀ s a r, M s = some (a, r) → r.length < s.length) :
    ∀ (f1 f2 : Nat) (s : List Char), s.length ≤ f1 → s.length ≤ f2 →
      scanF M f1 s = scanF M f2 s := by
  intro f1
  induction f1 with
  | zero =>
    intro f2 s h1 h2
    have hs : s = [] := List.eq_nil_of_length_eq_zero (Nat.le_zero.mp h1)
    subst hs
    cases f2 <;> rfl
  | succ m ih =>
    intro f2 s h1 h2
    cases s with
    | nil => cases f2 <;> rfl
    | cons c s2 =>
      cases f2 with
      | zero => simp at h2
      | succ k =>
        have hl1 : s2.length ≤ m := by
          simp only [List.length_cons] at h1
          omega
        have hl2 : s2.length ≤ k := by
          simp only [List.length_cons] at h2
          omega
        cases hm : M (c :: s2) with
        | none =>
          simp only [scanF, hm]
          exact ih k s2 hl1 hl2
        | some ar =>
          obtain ⟨a, r⟩ := ar
          have hr := hM (c :: s2) a r hm
          simp only [List.length_cons] at hr
          have hr1 : r.length ≤ m := by omega
          have hr2 : r.length ≤ k := by
            simp only [List.length_cons] at h2
            omega
          simp only [scanF, hm]
          rw [ih k r hr1 hr2]

/-- Any fuel at least the text length computes `scanAll`. -/
theorem scanAll_fuel_stable {α : Type} (M : List Char → Option (α × List Char))
    (hM : ∀ s a r, M s = some (a, r) → r.length < s.length)
    (f : Nat) (s : List Char) (hf : s.length ≤ f) :
    scanF M f s = scanAll M s :=
  scanF_fuel_irrel M hM f s.length s hf (Nat.le_refl _)

theorem c5_amended_witness :
    ("x" : String) ∈ requiredArray ⟨"t", "", [⟨"x", "string", true, "a"⟩], [], ""⟩ :=
  (c5_amended_required_members ⟨"t", "", [⟨"x", "string", true, "a"⟩], [], ""⟩ "x").mpr
    ⟨⟨"x", "string", true, "a"⟩, by decide, rfl, rfl⟩
